import Mathlib

/-!
# Verification of `fileagent.py` (rokene/file-agent)

A shallow embedding of the incremental Google-Drive mirroring script
`src/fileagent.py`.  Python functions are translated into executable Lean
definitions: the local filesystem becomes an association list from paths to
file contents, the Drive service becomes a record of oracles, exceptions
become an explicit `Except`/`PyExc` discipline mirroring the `try/except`
structure of the source, and the `tenacity` retry decorator becomes an
explicit bounded-retry combinator with the exact `wait_exponential`
delay formula.
-/

set_option autoImplicit false
set_option maxRecDepth 4000

namespace FileAgent

/-! ## Python exceptions

The exception classes that appear in the source's `except` clauses and in the
`retry_if_exception_type` lists: `ConnectionResetError`, `OSError`,
`ssl.SSLError`, `googleapiclient.errors.HttpError` (which carries an HTTP
status), a catch-all for every other `Exception` subclass, and
`tenacity.RetryError`, which the decorator raises on attempt exhaustion
(no `reraise=True` is set) wrapping the last attempt's exception. -/

inductive PyExc where
  | connectionReset (msg : String)
  | osError (msg : String)
  | sslError (msg : String)
  | httpError (status : Nat) (msg : String)
  | otherExc (msg : String)
  | retryError (last : PyExc)
  deriving Repr, DecidableEq

/-- Python `str(e)` on an exception, as used by `download_file`'s generic
`except Exception as e: return (file_name, False, str(e))` handler.  Only the
carried message text is observable in the tuple results we reason about. -/
def pyStr : PyExc → String
  | .connectionReset m => m
  | .osError m => m
  | .sslError m => m
  | .httpError _ m => m
  | .otherExc m => m
  | .retryError _ => "RetryError"

/-! ## Path arithmetic (`os.path` on POSIX, as used by the script)

Implemented over the character lists by structural recursion (the standard
library's substring routines do not reduce inside the kernel). -/

/-- `as` is a prefix of `bs`. -/
def listIsPre : List Char → List Char → Bool
  | [], _ => true
  | _ :: _, [] => false
  | a :: as, b :: bs => a == b && listIsPre as bs

/-- Python `s.startswith(t)`. -/
def strStartsWith (s t : String) : Bool := listIsPre t.data s.data

/-- Python `s.endswith(t)`. -/
def strEndsWith (s t : String) : Bool := listIsPre t.data.reverse s.data.reverse

/-- `os.path.join(a, b)` for the shapes the script produces (no absolute `b`). -/
def pathJoin (a b : String) : String :=
  if a = "" then b else if strEndsWith a "/" then a ++ b else a ++ "/" ++ b

/-- `os.path.dirname(p)`: everything before the final `/`, `""` if none. -/
def dirname (p : String) : String :=
  match p.data.reverse.dropWhile (fun c => c != '/') with
  | [] => ""
  | _ :: rest => ⟨rest.reverse⟩

/-! ## `sanitize_filename` -/

/-- The characters removed by `re.sub(r'[<>:"/\\|?*]', '', filename)`. -/
def forbiddenChars : List Char := ['<', '>', ':', '"', '/', '\\', '|', '?', '*']

/-- `sanitize_filename(filename, max_length=255)`: `None` maps to
`"Unnamed_File"`; otherwise the forbidden characters are removed and the
result is truncated with `sanitized[:max_length]` when strictly longer than
`max_length`. -/
def sanitize_filename (filename : Option String) (max_length : Nat := 255) : String :=
  match filename with
  | none => "Unnamed_File"
  | some f =>
    let sanitized : String := ⟨f.data.filter (fun c => !(forbiddenChars.contains c))⟩
    if sanitized.length > max_length then ⟨sanitized.data.take max_length⟩ else sanitized

/-! ## Local filesystem model

A path maps to at most one file.  A file's content is only ever inspected by
`json.load` of a sidecar, so we record contents up to that observation:
`raw` for artifact bytes (and any text that does not parse as sidecar JSON
is `corrupt`), `meta m` for a JSON serialization of the sidecar record `m`. -/

/-- The sidecar record written by `download_file`:
`{'file_id': ..., 'size': int(...), 'modified_time': ...}`. -/
structure SidecarMeta where
  file_id : String
  size : Nat
  modified_time : String
  deriving Repr, DecidableEq

inductive Content where
  | raw : Content
  | meta : SidecarMeta → Content
  | corrupt : Content
  deriving Repr, DecidableEq

/-- The local filesystem: an association list from path to content; a present
key models `os.path.exists` returning `True`. -/
abbrev FS := List (String × Content)

/-- File lookup (`open(p)` / `os.path.exists(p)`). -/
def FS.get (fs : FS) (p : String) : Option Content :=
  match fs with
  | [] => none
  | (q, c) :: rest => if q = p then some c else FS.get rest p

/-- Drop every entry stored under `p`. -/
def FS.erase (fs : FS) (p : String) : FS :=
  match fs with
  | [] => []
  | (q, c) :: rest => if q = p then FS.erase rest p else (q, c) :: FS.erase rest p

/-- Create or overwrite the file at `p` with content `c`. -/
def FS.set (fs : FS) (p : String) (c : Content) : FS :=
  (p, c) :: fs.erase p

/-- `os.remove(p)`. -/
def FS.remove (fs : FS) (p : String) : FS :=
  fs.erase p

/-! ## Remote metadata -/

/-- The fields `download_file` reads with
`service.files().get(fileId=..., fields="mimeType, size, modifiedTime")`.
Google-native files report no `size`, hence the `Option`; the script reads it
with `int(file_metadata.get('size', 0))`. -/
structure DriveFileMeta where
  mimeType : String
  size : Option Nat
  modifiedTime : String
  deriving Repr, DecidableEq

/-- `int(metadata.get('size', 0))`. -/
def sizeOrZero (s : Option Nat) : Nat := s.getD 0

/-! ## `file_already_exists`

`file_already_exists(destination_path, file_id, service)`.  The remote
metadata read `service.files().get(fileId=file_id, fields="size,
modifiedTime")` is abstracted as the `fetch` argument.  The function can
mutate the filesystem (deleting a corrupt sidecar) and can let an
`ssl.SSLError` escape (the code re-raises it so the surrounding `@retry`
decorator sees it); an `HttpError` from the metadata read is converted to
`False`.  Any other exception from the read would also escape. -/

def file_already_exists (fs : FS) (destination_path file_id : String)
    (fetch : Except PyExc DriveFileMeta) : Except PyExc (Bool × FS) :=
  let metadata_file_path := destination_path ++ ".meta"
  if (fs.get destination_path).isNone ∨ (fs.get metadata_file_path).isNone then
    .ok (false, fs)
  else
    match fs.get metadata_file_path with
    | some (.meta metadata) =>
      match fetch with
      | .error (.httpError s m) =>
        let _ := (s, m)
        .ok (false, fs)
      | .error e => .error e
      | .ok drive_metadata =>
        let drive_file_size := sizeOrZero drive_metadata.size
        let drive_modified_time := drive_metadata.modifiedTime
        if metadata.file_id = file_id ∧ metadata.size = drive_file_size ∧
            metadata.modified_time = drive_modified_time then
          .ok (true, fs)
        else
          .ok (false, fs)
    | _ =>
      -- `json.load` raised (`JSONDecodeError`/`IOError`): delete the sidecar.
      .ok (false, fs.remove metadata_file_path)

/-! ## Export mapping for Google-native kinds -/

/-- `get_export_mime_type_and_extension(mime_type, file_name)`: the fixed
dictionary lookup with default `(None, '')`. -/
def get_export_mime_type_and_extension (mime_type file_name : String) :
    Option String × String :=
  let _ := file_name
  if mime_type = "application/vnd.google-apps.document" then
    (some "application/pdf", ".pdf")
  else if mime_type = "application/vnd.google-apps.spreadsheet" then
    (some "application/vnd.openxmlformats-officedocument.spreadsheetml.sheet", ".xlsx")
  else if mime_type = "application/vnd.google-apps.presentation" then
    (some "application/vnd.openxmlformats-officedocument.presentationml.presentation", ".pptx")
  else (none, "")

/-- `append_extension(file_name, extension)`. -/
def append_extension (file_name extension : String) : String :=
  if strEndsWith file_name extension then file_name else file_name ++ extension

/-! ## `download_file`

The environment captures the outcomes of the effectful sub-operations of one
invocation: `os.makedirs`, the opening metadata read, `io.FileIO`, the
successive `downloader.next_chunk()` calls (`Bool` is the returned `done`
flag), and the sidecar `open(... + '.meta', 'w')`/`json.dump`.  A chunk trace
that ends without an explicit `done` is read as a completed transfer. -/

structure DlEnv where
  makedirs : Except PyExc Unit
  getMetadata : Except PyExc DriveFileMeta
  openFile : Except PyExc Unit
  chunks : List (Except PyExc Bool)
  writeMeta : Except PyExc Unit
  deriving Repr

/-- How a `while not done` chunk loop ends. -/
inductive StreamEnd where
  | completed
  | quotaReturn
  | raised (e : PyExc)
  deriving Repr, DecidableEq

/-- The export-branch loop: no inner `try`, every exception propagates. -/
def googleLoop : List (Except PyExc Bool) → StreamEnd
  | [] => .completed
  | .ok true :: _ => .completed
  | .ok false :: rest => googleLoop rest
  | .error e :: _ => .raised e

/-- The direct-download loop with its inner `try`: `ssl.SSLError` is
re-raised, `HttpError` with status 403/429 triggers the early
quota return, any other `HttpError` is re-raised, and exceptions of other
classes are not caught by the inner handlers. -/
def plainLoop : List (Except PyExc Bool) → StreamEnd
  | [] => .completed
  | .ok true :: _ => .completed
  | .ok false :: rest => plainLoop rest
  | .error (.sslError m) :: _ => .raised (.sslError m)
  | .error (.httpError s m) :: _ =>
      if s = 403 ∨ s = 429 then .quotaReturn else .raised (.httpError s m)
  | .error e :: _ => .raised e

/-- The observable outcome of the `try` body of `download_file`: the value
returned or the exception that reached the outer handlers, together with the
current value of the (reassigned) `file_name` local, the filesystem, whether
`io.FileIO` succeeded (so `file` is non-`None`), and the sidecar write. -/
structure DlBody where
  out : Except PyExc (String × Bool × String)
  fileNameNow : String
  fs : FS
  opened : Bool
  sidecar : Option (String × SidecarMeta)
  deriving Repr

/-- Lines 152-162: build the sidecar record from the metadata read at the
start of the fetch and write it next to the (possibly rewritten)
destination, then `return (file_name, True, "")`. -/
def finishDownload (env : DlEnv) (file_metadata : DriveFileMeta)
    (file_id file_name destination_path : String) (fs : FS) : DlBody :=
  match env.writeMeta with
  | .error e => ⟨.error e, file_name, fs, true, none⟩
  | .ok _ =>
    let m : SidecarMeta :=
      ⟨file_id, sizeOrZero file_metadata.size, file_metadata.modifiedTime⟩
    ⟨.ok (file_name, true, ""), file_name,
      fs.set (destination_path ++ ".meta") (.meta m), true,
      some (destination_path ++ ".meta", m)⟩

/-- The `try` body of `download_file` (lines 104-162). -/
def download_file_body (env : DlEnv) (file_id file_name destination_path : String)
    (fs : FS) : DlBody :=
  match env.makedirs with
  | .error e => ⟨.error e, file_name, fs, false, none⟩
  | .ok _ =>
  match env.getMetadata with
  | .error e => ⟨.error e, file_name, fs, false, none⟩
  | .ok file_metadata =>
  let mime_type := file_metadata.mimeType
  if strStartsWith mime_type "application/vnd.google-apps" then
    match get_export_mime_type_and_extension mime_type file_name with
    | (none, _) => ⟨.ok (file_name, false, "Unsupported MIME type"), file_name, fs, false, none⟩
    | (some _, extension) =>
      let file_name1 := append_extension file_name extension
      let destination_path1 := pathJoin (dirname destination_path) file_name1
      match env.openFile with
      | .error e => ⟨.error e, file_name1, fs, false, none⟩
      | .ok _ =>
        let fs1 := fs.set destination_path1 .raw
        match googleLoop env.chunks with
        | .raised e => ⟨.error e, file_name1, fs1, true, none⟩
        | _ => finishDownload env file_metadata file_id file_name1 destination_path1 fs1
  else
    match env.openFile with
    | .error e => ⟨.error e, file_name, fs, false, none⟩
    | .ok _ =>
      let fs1 := fs.set destination_path .raw
      match plainLoop env.chunks with
      | .raised e => ⟨.error e, file_name, fs1, true, none⟩
      | .quotaReturn =>
          ⟨.ok (file_name, false, "Quota or rate limit exceeded"), file_name, fs1, true, none⟩
      | .completed => finishDownload env file_metadata file_id file_name destination_path fs1

/-- The outer handlers of `download_file`: `except ssl.SSLError` formats its
own message, `except Exception` catches every remaining exception with
`str(e)`.  `none` would mean the exception propagates past the function. -/
def handleExc (fileNameNow : String) : PyExc → Option (String × Bool × String)
  | .sslError m => some (fileNameNow, false, "SSL error: " ++ m)
  | e => some (fileNameNow, false, pyStr e)

/-- The full result of one `download_file` invocation. -/
structure DlReturn where
  ret : String × Bool × String
  raised : Option PyExc
  fs : FS
  opened : Bool
  closeRan : Bool
  sidecar : Option (String × SidecarMeta)
  deriving Repr

/-- `download_file(service, file_id, file_name, destination_path)`: the body
wrapped by the outer `except` clauses and by
`finally: if file: file.close()` (whose own errors are caught and logged). -/
def download_file (env : DlEnv) (file_id file_name destination_path : String)
    (fs : FS) : DlReturn :=
  let b := download_file_body env file_id file_name destination_path fs
  match b.out with
  | .ok t => ⟨t, none, b.fs, b.opened, b.opened, b.sidecar⟩
  | .error e =>
    match handleExc b.fileNameNow e with
    | some t => ⟨t, none, b.fs, b.opened, b.opened, b.sidecar⟩
    | none => ⟨(b.fileNameNow, false, ""), some e, b.fs, b.opened, b.opened, b.sidecar⟩

/-! ## The `tenacity` retry decorator

All three decorated functions use
`retry(retry=retry_if_exception_type((ConnectionResetError, OSError,
HttpError, ssl.SSLError)), stop=stop_after_attempt(5),
wait=wait_exponential(multiplier=1, min=4, max=10))`. -/

structure RetryCfg where
  attempts : Nat
  multiplier : Nat
  minDelay : Nat
  maxDelay : Nat
  deriving Repr, DecidableEq

/-- The configuration shared by the three `@retry` sites. -/
def retryConfig : RetryCfg := ⟨5, 1, 4, 10⟩

/-- `wait_exponential.__call__`: after failed attempt number `n` (1-based) the
delay is `max(min, min(multiplier * 2^(n-1), max))`. -/
def waitDelay (cfg : RetryCfg) (n : Nat) : Nat :=
  Nat.max cfg.minDelay (Nat.min (cfg.multiplier * 2 ^ (n - 1)) cfg.maxDelay)

/-- `retry_if_exception_type((ConnectionResetError, OSError, HttpError,
ssl.SSLError))`. -/
def isTransientExc : PyExc → Bool
  | .connectionReset _ => true
  | .osError _ => true
  | .sslError _ => true
  | .httpError _ _ => true
  | .otherExc _ => false
  | .retryError _ => false

/-- Trace of one decorated call: final outcome, number of attempts actually
executed, and the backoff delays slept between attempts. -/
structure RetryTrace (α : Type) where
  result : Except PyExc α
  attemptsMade : Nat
  delays : List Nat
  deriving Repr

/-- The retry loop: `fuel` is the remaining attempt budget, `attempt` the
1-based number of the attempt about to run.  An exception the classifier
rejects propagates as-is; an accepted one triggers a `waitDelay` sleep and a
re-attempt while budget remains, and once `stop_after_attempt` trips the
decorator raises a `RetryError` wrapping the last attempt's exception
(`reraise` is left at its default `False`). -/
def retryGo {α : Type} (cfg : RetryCfg) (retryOn : PyExc → Bool)
    (op : Nat → Except PyExc α) : Nat → Nat → RetryTrace α
  | 0, attempt => ⟨.error (.otherExc "retry budget exhausted"), attempt - 1, []⟩
  | fuel + 1, attempt =>
    match op attempt with
    | .ok a => ⟨.ok a, attempt, []⟩
    | .error e =>
      if retryOn e then
        if fuel ≠ 0 then
          let d := waitDelay cfg attempt
          let t := retryGo cfg retryOn op fuel (attempt + 1)
          ⟨t.result, t.attemptsMade, d :: t.delays⟩
        else ⟨.error (.retryError e), attempt, []⟩
      else ⟨.error e, attempt, []⟩

def retryRun {α : Type} (cfg : RetryCfg) (retryOn : PyExc → Bool)
    (op : Nat → Except PyExc α) : RetryTrace α :=
  retryGo cfg retryOn op cfg.attempts 1

/-- A raw listing entry with the fields `files(id, name, mimeType)`. -/
structure RawItem where
  id : String
  name : String
  mimeType : String
  deriving Repr, DecidableEq

/-- Decorated `list_files_in_folder`: the body drains the pagination loop and
re-raises every exception it catches, so one attempt is exactly one call of
the per-attempt listing oracle; the decorator retries transient classes. -/
def list_files_in_folder (listing : Nat → Except PyExc (List RawItem)) :
    RetryTrace (List RawItem) :=
  retryRun retryConfig isTransientExc listing

/-- Decorated `file_already_exists` (the oracle outcome is the same on every
attempt, so the re-executed body is deterministic). -/
def file_already_exists_retried (fs : FS) (destination_path file_id : String)
    (fetch : Except PyExc DriveFileMeta) : RetryTrace (Bool × FS) :=
  retryRun retryConfig isTransientExc
    (fun _ => file_already_exists fs destination_path file_id fetch)

/-- Decorated `download_file`: the decorator only ever sees an exception if
one escapes the function's own handlers. -/
def download_file_retried (env : DlEnv) (file_id file_name destination_path : String)
    (fs : FS) : RetryTrace DlReturn :=
  retryRun retryConfig isTransientExc (fun _ =>
    let r := download_file env file_id file_name destination_path fs
    match r.raised with
    | some e => .error e
    | none => .ok r)

/-! ## The remote tree and `get_all_files`

A remote subtree: a listing entry is a folder exactly when its `mimeType` is
`'application/vnd.google-apps.folder'`, which the constructor encodes.  A
`folder`'s `listingOk` records whether `list_files_in_folder` on its id
succeeds (after retries); `file` nodes carry the authoritative metadata the
service reports for their id. -/

inductive RTree where
  | file (id name mimeType : String) (size : Option Nat) (modifiedTime : String)
  | folder (id name : String) (listingOk : Bool) (children : List RTree)
  deriving Repr

/-- One element of the list `get_all_files` builds:
`{'id': ..., 'name': item_name, 'path': item_path}` (name already
sanitized). -/
structure DriveItem where
  id : String
  name : String
  path : String
  deriving Repr, DecidableEq

mutual

/-- `get_all_files(service, folder_id, parent_path)`.  A listing failure
(after retry exhaustion) is caught by the surrounding `except` and yields
`[]` for this subtree only; calling it on a non-folder id also fails its
listing and yields `[]`. -/
def get_all_files : RTree → String → List DriveItem
  | .file _ _ _ _ _, _ => []
  | .folder _ _ listingOk children, parent_path =>
      if listingOk then gatherItems children parent_path else []

/-- The `for item in items` loop body: files become entries with
`item_path = os.path.join(parent_path, item_name)`, folders recurse. -/
def gatherItems : List RTree → String → List DriveItem
  | [], _ => []
  | t :: ts, parent_path =>
      (match t with
       | .file i n _ _ _ =>
           let item_name := sanitize_filename (some n)
           [⟨i, item_name, pathJoin parent_path item_name⟩]
       | .folder _ n _ _ =>
           get_all_files t (pathJoin parent_path (sanitize_filename (some n)))) ++
      gatherItems ts parent_path

end

mutual

/-- First file node in the tree carrying the given id (the service's
authoritative metadata for that id). -/
def findMeta : RTree → String → Option DriveFileMeta
  | .file i _ mt sz tm, fid => if i = fid then some ⟨mt, sz, tm⟩ else none
  | .folder _ _ _ children, fid => findMetaList children fid

def findMetaList : List RTree → String → Option DriveFileMeta
  | [], _ => none
  | t :: ts, fid =>
      match findMeta t fid with
      | some m => some m
      | none => findMetaList ts fid

end

/-! ## `process_subdirectory` and the shared counters -/

structure Counters where
  skipped : Nat
  failed : Nat
  downloaded : Nat
  total_files : Nat
  deriving Repr, DecidableEq

def countersZero : Counters := ⟨0, 0, 0, 0⟩

/-- The service as seen by one `process_subdirectory` call: the freshness
check's metadata read per file id, and the full `download_file` environment
per file id (its `getMetadata` field is the opening metadata read). -/
structure Service where
  freshMeta : String → Except PyExc DriveFileMeta
  dlEnv : String → DlEnv

/-- The first loop of `process_subdirectory` (lines 340-349): partition the
enumerated files into skipped ones (incrementing `counters['skipped']` under
the lock) and `files_to_download` triples
`(item['id'], item['name'], destination_path)`.  An exception escaping the
decorated `file_already_exists` propagates out of the loop. -/
def assessFiles (svc : Service) (shared_folder_local_path : String) :
    List DriveItem → FS → Counters →
    Except PyExc (FS × Counters × List (String × String × String))
  | [], fs, c => .ok (fs, c, [])
  | item :: rest, fs, c =>
    let destination_path := pathJoin shared_folder_local_path item.path
    match (file_already_exists_retried fs destination_path item.id
        (svc.freshMeta item.id)).result with
    | .error e => .error e
    | .ok (true, fs') =>
        assessFiles svc shared_folder_local_path rest fs'
          { c with skipped := c.skipped + 1 }
    | .ok (false, fs') =>
        match assessFiles svc shared_folder_local_path rest fs' c with
        | .error e => .error e
        | .ok (fs'', c'', toDl) =>
            .ok (fs'', c'', (item.id, item.name, destination_path) :: toDl)

/-- The download loop (lines 370-396): one `download_file` per triple; the
workers only share the counters, every outcome is tallied exactly once, and
the tallies commute, so the `as_completed` collection is folded in
submission order.  A returned tuple with `success` increments `downloaded`,
anything else (including an exception re-raised by `future.result()`, which
our `download_file` never produces) increments `failed`. -/
def downloadAll (svc : Service) :
    List (String × String × String) → FS → Counters → FS × Counters
  | [], fs, c => (fs, c)
  | (file_id, file_name, destination_path) :: rest, fs, c =>
    let r := download_file (svc.dlEnv file_id) file_id file_name destination_path fs
    let c' :=
      if r.ret.2.1 then { c with downloaded := c.downloaded + 1 }
      else { c with failed := c.failed + 1 }
    downloadAll svc rest r.fs c'

/-- `process_subdirectory(service, folder_info, base_directory, executor,
counters, lock)` for one configured root: enumerate, partition, add
`len(files_to_download)` to `counters['total_files']`, then download.  The
early returns for an empty enumeration and an empty fetch set are kept. -/
def process_subdirectory (svc : Service) (root : RTree)
    (base_directory dest_dir : String) (fs : FS) (c : Counters) :
    Except PyExc (FS × Counters) :=
  let shared_folder_local_path :=
    pathJoin base_directory (sanitize_filename (some dest_dir))
  let all_files := get_all_files root ""
  if all_files = [] then .ok (fs, c)
  else
    match assessFiles svc shared_folder_local_path all_files fs c with
    | .error e => .error e
    | .ok (fs1, c1, toDl) =>
      let c2 := { c1 with total_files := c1.total_files + toDl.length }
      if toDl.length = 0 then .ok (fs1, c2)
      else .ok (downloadAll svc toDl fs1 c2)

/-- Remote metadata keyed by the tree: a missing id is a 404 `HttpError`. -/
def driveMetaOf (root : RTree) (fid : String) : Except PyExc DriveFileMeta :=
  match findMeta root fid with
  | some m => .ok m
  | none => .error (.httpError 404 "File not found")

/-- The metadata recorded in the tree for `fid` (junk default off-tree). -/
def metaOf (root : RTree) (fid : String) : DriveFileMeta :=
  (findMeta root fid).getD ⟨"", none, ""⟩

/-- A `download_file` environment in which the network transfer completes in
one chunk and every local I/O operation succeeds. -/
def mkHappyEnv (md : Except PyExc DriveFileMeta) : DlEnv :=
  { makedirs := .ok ()
    getMetadata := md
    openFile := .ok ()
    chunks := [.ok true]
    writeMeta := .ok () }

/-- The service whose remote state is exactly the tree and whose network and
local I/O never fail: metadata reads answer from the tree (a missing id is a
404), every transfer completes in one chunk, and `os.makedirs`, `io.FileIO`
and the sidecar write succeed. -/
def happyService (root : RTree) : Service where
  freshMeta := driveMetaOf root
  dlEnv fid := mkHappyEnv (driveMetaOf root fid)

/-! ## Destination-path separation

The script maps every remote entry to one destination path and acknowledges
that colliding sanitized names are lossy (later writes win).  Two paths are
separated when neither one, nor its `.meta` sidecar, is the other or the
other's sidecar. -/

abbrev sepRel (p q : String) : Prop :=
  p ≠ q ∧ p ≠ q ++ ".meta" ∧ p ++ ".meta" ≠ q ∧ p ++ ".meta" ≠ q ++ ".meta"

abbrev PathsSeparated (l : List String) : Prop := l.Pairwise sepRel

/-! ## Concrete instances used for evaluation -/

def plainMeta : DriveFileMeta := ⟨"text/plain", some 5, "2024-01-01T00:00:00Z"⟩

def gdocMeta : DriveFileMeta :=
  ⟨"application/vnd.google-apps.document", none, "2024-01-01T00:00:00Z"⟩

/-- A Google Forms entry: a Google-native kind absent from the export table. -/
def formMeta : DriveFileMeta :=
  ⟨"application/vnd.google-apps.form", none, "2024-01-01T00:00:00Z"⟩

def envMkdirFail : DlEnv :=
  { makedirs := .error (.osError "disk full"), getMetadata := .ok plainMeta,
    openFile := .ok (), chunks := [.ok true], writeMeta := .ok () }

def quotaEnv : DlEnv :=
  { makedirs := .ok (), getMetadata := .ok plainMeta, openFile := .ok (),
    chunks := [.error (.httpError 403 "Rate Limit Exceeded")], writeMeta := .ok () }

def sslStreamEnv : DlEnv :=
  { makedirs := .ok (), getMetadata := .ok plainMeta, openFile := .ok (),
    chunks := [.error (.sslError "handshake failure")], writeMeta := .ok () }

def formTree : RTree :=
  .folder "root" "Shared" true
    [.file "f9" "Form" "application/vnd.google-apps.form" none "2024-01-01T00:00:00Z"]

def quotaTree : RTree :=
  .folder "root" "Shared" true
    [.file "f8" "a.txt" "text/plain" (some 5) "2024-01-01T00:00:00Z"]

def quotaSvc : Service :=
  { freshMeta := driveMetaOf quotaTree, dlEnv := fun _ => quotaEnv }

def plainTree : RTree :=
  .folder "root" "Shared" true
    [.file "f1" "a.txt" "text/plain" (some 3) "2024-01-01T00:00:00Z"]

/-- The local state after the first (fully successful) run over `plainTree`. -/
def plainFs1 : FS :=
  [("base/dest/a.txt.meta", .meta ⟨"f1", 3, "2024-01-01T00:00:00Z"⟩),
   ("base/dest/a.txt", .raw)]

def gTree : RTree :=
  .folder "root" "Shared" true
    [.file "g1" "Doc" "application/vnd.google-apps.document" none "2024-01-01T00:00:00Z"]

/-- The local state after a successful run over `gTree`: the artifact and
sidecar live at the exported name `Doc.pdf`, not at the enumerated `Doc`. -/
def gFs1 : FS :=
  [("base/dest/Doc.pdf.meta", .meta ⟨"g1", 0, "2024-01-01T00:00:00Z"⟩),
   ("base/dest/Doc.pdf", .raw)]

def fsFresh : FS :=
  [("base/a.txt", .raw), ("base/a.txt.meta", .meta ⟨"id1", 7, "T1"⟩)]

def fsCorrupt : FS := [("base/b.txt", .raw), ("base/b.txt.meta", .corrupt)]

def twoTree : RTree :=
  .folder "root" "Shared" true
    [.file "f1" "a.txt" "text/plain" (some 3) "T1",
     .folder "sub" "Sub" true [.file "f2" "b.txt" "text/plain" (some 4) "T2"]]

/-! ## Helper lemmas -/

theorem length_append_meta (p : String) : (p ++ ".meta").length = p.length + 5 := by
  rw [String.length_append]; rfl

theorem ne_append_meta (p : String) : p ≠ p ++ ".meta" := by
  intro h
  have h' := congrArg String.length h
  rw [length_append_meta] at h'
  omega

theorem FS.get_nil (p : String) : FS.get [] p = none := rfl

theorem FS.get_erase_ne (fs : FS) (p q : String) (h : q ≠ p) :
    FS.get (fs.erase p) q = FS.get fs q := by
  induction fs with
  | nil => rfl
  | cons hd tl ih =>
    obtain ⟨a, c⟩ := hd
    have hpq : ¬ p = q := fun hh => h hh.symm
    by_cases hp : a = p
    · have hq : a ≠ q := by rw [hp]; exact fun hh => h hh.symm
      simp [FS.erase, FS.get, hp, hq, hpq, ih]
    · by_cases hq : a = q
      · simp [FS.erase, FS.get, hp, hq, h, ih]
      · simp [FS.erase, FS.get, hp, hq, h, ih]

theorem FS.get_erase_self (fs : FS) (p : String) :
    FS.get (fs.erase p) p = none := by
  induction fs with
  | nil => rfl
  | cons hd tl ih =>
    obtain ⟨a, c⟩ := hd
    by_cases hp : a = p
    · simp [FS.erase, hp, ih]
    · simp [FS.erase, FS.get, hp, ih]

theorem FS.get_set_self (fs : FS) (p : String) (c : Content) :
    FS.get (fs.set p c) p = some c := by
  simp [FS.set, FS.get]

theorem FS.get_set_ne (fs : FS) (p q : String) (c : Content) (h : q ≠ p) :
    FS.get (fs.set p c) q = FS.get fs q := by
  have hne : p ≠ q := fun hh => h hh.symm
  simp only [FS.set, FS.get, if_neg hne]
  exact FS.get_erase_ne fs p q h

theorem FS.get_remove_self (fs : FS) (p : String) :
    FS.get (fs.remove p) p = none := FS.get_erase_self fs p

theorem retryRun_first_ok {α : Type} (cfg : RetryCfg) (retryOn : PyExc → Bool)
    (op : Nat → Except PyExc α) (a : α) (h : op 1 = .ok a) (hn : 0 < cfg.attempts) :
    retryRun cfg retryOn op = ⟨.ok a, 1, []⟩ := by
  unfold retryRun
  obtain ⟨k, hk⟩ : ∃ k, cfg.attempts = k + 1 := ⟨cfg.attempts - 1, by omega⟩
  rw [hk]
  simp [retryGo, h]

theorem handleExc_isSome (n : String) (e : PyExc) : (handleExc n e).isSome := by
  cases e <;> rfl

theorem download_file_raised_none (env : DlEnv)
    (file_id file_name destination_path : String) (fs : FS) :
    (download_file env file_id file_name destination_path fs).raised = none := by
  simp only [download_file]
  cases hb : (download_file_body env file_id file_name destination_path fs).out with
  | ok t => rfl
  | error e => cases e <;> rfl

theorem download_file_closeRan (env : DlEnv)
    (file_id file_name destination_path : String) (fs : FS) :
    (download_file env file_id file_name destination_path fs).closeRan =
      (download_file env file_id file_name destination_path fs).opened := by
  simp only [download_file]
  cases hb : (download_file_body env file_id file_name destination_path fs).out with
  | ok t => rfl
  | error e => cases e <;> rfl

theorem download_file_error_fail (env : DlEnv)
    (file_id file_name destination_path : String) (fs : FS) (e : PyExc)
    (hb : (download_file_body env file_id file_name destination_path fs).out = .error e) :
    (download_file env file_id file_name destination_path fs).ret.2.1 = false := by
  simp only [download_file]
  rw [hb]
  cases e <;> rfl

theorem download_file_happy (m : DriveFileMeta)
    (hmime : strStartsWith m.mimeType "application/vnd.google-apps" = false)
    (file_id file_name destination_path : String) (fs : FS) :
    download_file (mkHappyEnv (.ok m)) file_id file_name destination_path fs =
      ⟨(file_name, true, ""), none,
        (fs.set destination_path .raw).set (destination_path ++ ".meta")
          (.meta ⟨file_id, sizeOrZero m.size, m.modifiedTime⟩),
        true, true,
        some (destination_path ++ ".meta", ⟨file_id, sizeOrZero m.size, m.modifiedTime⟩)⟩ := by
  simp [download_file, download_file_body, mkHappyEnv, hmime, plainLoop, finishDownload]

theorem fae_fresh (fs : FS) (dest fid : String) (m : DriveFileMeta) (c : Content)
    (h1 : FS.get fs dest = some c)
    (h2 : FS.get fs (dest ++ ".meta") = some (.meta ⟨fid, sizeOrZero m.size, m.modifiedTime⟩)) :
    file_already_exists fs dest fid (.ok m) = .ok (true, fs) := by
  simp [file_already_exists, h1, h2]

theorem download_file_fields (env : DlEnv)
    (file_id file_name destination_path : String) (fs : FS) :
    (download_file env file_id file_name destination_path fs).fs =
      (download_file_body env file_id file_name destination_path fs).fs ∧
    (download_file env file_id file_name destination_path fs).sidecar =
      (download_file_body env file_id file_name destination_path fs).sidecar ∧
    (download_file env file_id file_name destination_path fs).opened =
      (download_file_body env file_id file_name destination_path fs).opened := by
  simp only [download_file]
  cases hb : (download_file_body env file_id file_name destination_path fs).out with
  | ok t => exact ⟨rfl, rfl, rfl⟩
  | error e => cases e <;> exact ⟨rfl, rfl, rfl⟩

theorem download_file_ok_ret (env : DlEnv)
    (file_id file_name destination_path : String) (fs : FS) (t : String × Bool × String)
    (hb : (download_file_body env file_id file_name destination_path fs).out = .ok t) :
    (download_file env file_id file_name destination_path fs).ret = t := by
  simp only [download_file]
  rw [hb]

theorem download_file_body_cases (env : DlEnv)
    (file_id file_name destination_path : String) (fs : FS) (b : DlBody)
    (hb : b = download_file_body env file_id file_name destination_path fs) :
    (b.sidecar = none ∧ ∀ t, b.out = .ok t → t.2.1 = false) ∨
    (∃ m p, env.getMetadata = .ok m ∧ b.out = .ok (b.fileNameNow, true, "") ∧
      b.sidecar = some (p, ⟨file_id, sizeOrZero m.size, m.modifiedTime⟩) ∧
      FS.get b.fs p = some (.meta ⟨file_id, sizeOrZero m.size, m.modifiedTime⟩)) := by
  subst hb
  unfold download_file_body
  cases hmk : env.makedirs with
  | error e => exact Or.inl ⟨rfl, fun t ht => by cases ht⟩
  | ok u =>
  cases hgm : env.getMetadata with
  | error e => exact Or.inl ⟨rfl, fun t ht => by cases ht⟩
  | ok fm =>
  dsimp only
  by_cases hmime : strStartsWith fm.mimeType "application/vnd.google-apps" = true
  · rw [if_pos hmime]
    cases hexp : get_export_mime_type_and_extension fm.mimeType file_name with
    | mk em ext =>
    cases em with
    | none => exact Or.inl ⟨rfl, fun t ht => by cases ht; rfl⟩
    | some e0 =>
    cases hop : env.openFile with
    | error e => exact Or.inl ⟨rfl, fun t ht => by cases ht⟩
    | ok u2 =>
    cases hloop : googleLoop env.chunks with
    | raised e => exact Or.inl ⟨rfl, fun t ht => by cases ht⟩
    | completed =>
      unfold finishDownload
      cases hw : env.writeMeta with
      | error e2 => exact Or.inl ⟨rfl, fun t ht => by cases ht⟩
      | ok u3 => exact Or.inr ⟨fm, _, rfl, rfl, rfl, FS.get_set_self _ _ _⟩
    | quotaReturn =>
      unfold finishDownload
      cases hw : env.writeMeta with
      | error e2 => exact Or.inl ⟨rfl, fun t ht => by cases ht⟩
      | ok u3 => exact Or.inr ⟨fm, _, rfl, rfl, rfl, FS.get_set_self _ _ _⟩
  · rw [if_neg hmime]
    cases hop : env.openFile with
    | error e => exact Or.inl ⟨rfl, fun t ht => by cases ht⟩
    | ok u2 =>
    cases hloop : plainLoop env.chunks with
    | raised e => exact Or.inl ⟨rfl, fun t ht => by cases ht⟩
    | quotaReturn => exact Or.inl ⟨rfl, fun t ht => by cases ht; rfl⟩
    | completed =>
      unfold finishDownload
      cases hw : env.writeMeta with
      | error e2 => exact Or.inl ⟨rfl, fun t ht => by cases ht⟩
      | ok u3 => exact Or.inr ⟨fm, _, rfl, rfl, rfl, FS.get_set_self _ _ _⟩

/-! ## Claim theorems -/

/-- C10: `sanitize_filename` removes every forbidden filesystem character
(`< > : " / \ | ? *`); when the stripped name is strictly longer than the
255-character cap it is truncated to exactly the cap, and otherwise it is
returned unchanged apart from the character stripping. -/
theorem sanitize_filename_spec (s : String) :
    (∀ ch ∈ (sanitize_filename (some s) 255).data, ch ∉ forbiddenChars) ∧
    ((s.data.filter (fun c => !(forbiddenChars.contains c))).length > 255 →
      (sanitize_filename (some s) 255).length = 255) ∧
    ((s.data.filter (fun c => !(forbiddenChars.contains c))).length ≤ 255 →
      sanitize_filename (some s) 255 = ⟨s.data.filter (fun c => !(forbiddenChars.contains c))⟩) := by
  refine ⟨?_, ?_, ?_⟩
  · intro ch hch
    simp only [sanitize_filename] at hch
    have hmem : ch ∈ s.data.filter (fun c => !(forbiddenChars.contains c)) := by
      split at hch
      · exact List.take_subset _ _ hch
      · exact hch
    have hpred := List.of_mem_filter hmem
    intro hbad
    have : forbiddenChars.contains ch = true := by
      simpa using hbad
    rw [this] at hpred
    cases hpred
  · intro hlen
    simp only [sanitize_filename]
    have hlen' : (String.mk (s.data.filter (fun c => !(forbiddenChars.contains c)))).length > 255 :=
      hlen
    rw [if_pos hlen']
    show (List.take 255 (s.data.filter (fun c => !(forbiddenChars.contains c)))).length = 255
    rw [List.length_take]
    omega
  · intro hlen
    simp only [sanitize_filename]
    have hlen' : ¬ (String.mk (s.data.filter (fun c => !(forbiddenChars.contains c)))).length > 255 := by
      show ¬ (s.data.filter (fun c => !(forbiddenChars.contains c))).length > 255
      omega
    rw [if_neg hlen']

/-- C10 witness: `a/b:c*d` sanitizes to `abcd` with no forbidden character
left, and a 300-character name is truncated to exactly 255 characters. -/
theorem sanitize_filename_spec_witness :
    sanitize_filename (some "a/b:c*d") 255 = "abcd" ∧
    (∀ ch ∈ (sanitize_filename (some "a/b:c*d") 255).data, ch ∉ forbiddenChars) ∧
    (sanitize_filename (some (String.mk (List.replicate 300 'a'))) 255).length = 255 := by
  refine ⟨?_, (sanitize_filename_spec "a/b:c*d").1, ?_⟩
  · have h := (sanitize_filename_spec "a/b:c*d").2.2 (by decide)
    rw [h]
    decide
  · exact (sanitize_filename_spec (String.mk (List.replicate 300 'a'))).2.1 (by decide)

/-- C1: when the artifact and sidecar both exist, the sidecar parses, and the
remote metadata read succeeds, `file_already_exists` returns `True` exactly
when the stored id, size and modified time all equal the remote entry's
current fingerprint, and `False` as soon as any one field differs. -/
theorem freshness_fingerprint_iff (fs : FS) (destination_path file_id : String)
    (m : SidecarMeta) (d : DriveFileMeta) (c : Content)
    (hart : FS.get fs destination_path = some c)
    (hmeta : FS.get fs (destination_path ++ ".meta") = some (.meta m)) :
    (file_already_exists fs destination_path file_id (.ok d) = .ok (true, fs) ↔
      (m.file_id = file_id ∧ m.size = sizeOrZero d.size ∧
        m.modified_time = d.modifiedTime)) ∧
    (¬ (m.file_id = file_id ∧ m.size = sizeOrZero d.size ∧
        m.modified_time = d.modifiedTime) →
      file_already_exists fs destination_path file_id (.ok d) = .ok (false, fs)) := by
  unfold file_already_exists
  by_cases h : m.file_id = file_id ∧ m.size = sizeOrZero d.size ∧
      m.modified_time = d.modifiedTime
  · simp [hart, hmeta, h]
  · simp [hart, hmeta, h]

/-- C1 witness: with a matching fingerprint the check returns current; with a
remote size bumped from 7 to 8 it returns not-current. -/
theorem freshness_fingerprint_iff_witness :
    file_already_exists fsFresh "base/a.txt" "id1"
      (.ok ⟨"text/plain", some 7, "T1"⟩) = .ok (true, fsFresh) ∧
    file_already_exists fsFresh "base/a.txt" "id1"
      (.ok ⟨"text/plain", some 8, "T1"⟩) = .ok (false, fsFresh) :=
  ⟨((freshness_fingerprint_iff fsFresh "base/a.txt" "id1" ⟨"id1", 7, "T1"⟩
      ⟨"text/plain", some 7, "T1"⟩ .raw rfl rfl).1).mpr (by decide),
   (freshness_fingerprint_iff fsFresh "base/a.txt" "id1" ⟨"id1", 7, "T1"⟩
      ⟨"text/plain", some 8, "T1"⟩ .raw rfl rfl).2 (by decide)⟩

/-- C7: an artifact with an unparseable sidecar has the sidecar deleted and
reports not-current without raising, for any outcome of the remote read; a
missing artifact or missing sidecar reports not-current with no deletion. -/
theorem corrupt_sidecar_recovery (fs : FS) (destination_path file_id : String)
    (fetch : Except PyExc DriveFileMeta) :
    (∀ c, FS.get fs destination_path = some c →
      FS.get fs (destination_path ++ ".meta") = some .corrupt →
      file_already_exists fs destination_path file_id fetch =
        .ok (false, fs.remove (destination_path ++ ".meta")) ∧
      FS.get (fs.remove (destination_path ++ ".meta")) (destination_path ++ ".meta") = none) ∧
    (FS.get fs destination_path = none →
      file_already_exists fs destination_path file_id fetch = .ok (false, fs)) ∧
    (FS.get fs (destination_path ++ ".meta") = none →
      file_already_exists fs destination_path file_id fetch = .ok (false, fs)) := by
  refine ⟨?_, ?_, ?_⟩
  · intro c h1 h2
    refine ⟨?_, FS.get_remove_self fs _⟩
    unfold file_already_exists
    simp [h1, h2]
  · intro h1
    unfold file_already_exists
    simp [h1]
  · intro h2
    unfold file_already_exists
    simp [h2]

/-- C7 witness: a corrupt sidecar beside `base/b.txt` is removed and the check
reports not-current; on an empty filesystem nothing is deleted. -/
theorem corrupt_sidecar_recovery_witness :
    file_already_exists fsCorrupt "base/b.txt" "id" (.ok plainMeta) =
      .ok (false, fsCorrupt.remove ("base/b.txt" ++ ".meta")) ∧
    FS.get (fsCorrupt.remove ("base/b.txt" ++ ".meta")) ("base/b.txt" ++ ".meta") = none ∧
    file_already_exists [] "base/b.txt" "id" (.ok plainMeta) = .ok (false, []) :=
  ⟨((corrupt_sidecar_recovery fsCorrupt "base/b.txt" "id" (.ok plainMeta)).1 .raw rfl rfl).1,
   ((corrupt_sidecar_recovery fsCorrupt "base/b.txt" "id" (.ok plainMeta)).1 .raw rfl rfl).2,
   (corrupt_sidecar_recovery [] "base/b.txt" "id" (.ok plainMeta)).2.1 rfl⟩

/-- C6: `download_file` returns a `(file_name, success, message)` tuple on
every input — no exception escapes its handlers — every exception reaching
the outer handlers becomes a `success = False` result, and the `finally`
block closes the file handle whenever one was opened. -/
theorem download_file_no_throw (env : DlEnv)
    (file_id file_name destination_path : String) (fs : FS) :
    (download_file env file_id file_name destination_path fs).raised = none ∧
    ((download_file env file_id file_name destination_path fs).opened = true →
      (download_file env file_id file_name destination_path fs).closeRan = true) ∧
    (∀ e, (download_file_body env file_id file_name destination_path fs).out = .error e →
      (download_file env file_id file_name destination_path fs).ret.2.1 = false) :=
  ⟨download_file_raised_none env file_id file_name destination_path fs,
   fun h => (download_file_closeRan env file_id file_name destination_path fs).trans h,
   fun e he => download_file_error_fail env file_id file_name destination_path fs e he⟩

/-- C6 witness: with `os.makedirs` raising `OSError`, the call still returns
a tagged failure tuple and raises nothing. -/
theorem download_file_no_throw_witness :
    (download_file envMkdirFail "f" "a.txt" "d/a.txt" []).raised = none ∧
    (download_file envMkdirFail "f" "a.txt" "d/a.txt" []).ret.2.1 = false :=
  ⟨(download_file_no_throw envMkdirFail "f" "a.txt" "d/a.txt" []).1,
   (download_file_no_throw envMkdirFail "f" "a.txt" "d/a.txt" []).2.2 (.osError "disk full") rfl⟩

/-- C8: a sidecar is written only by a fetch whose result is `success = True`,
and then it records exactly the fingerprint (id, size, modified time) from
the metadata read at the start of the fetch; every failure path — unsupported
kind, quota skip, SSL error, any other exception — writes no sidecar. -/
theorem sidecar_only_on_success (env : DlEnv)
    (file_id file_name destination_path : String) (fs : FS) :
    ((download_file env file_id file_name destination_path fs).ret.2.1 = false →
      (download_file env file_id file_name destination_path fs).sidecar = none) ∧
    (∀ m, env.getMetadata = .ok m →
      (download_file env file_id file_name destination_path fs).ret.2.1 = true →
      ∃ p, (download_file env file_id file_name destination_path fs).sidecar =
          some (p, ⟨file_id, sizeOrZero m.size, m.modifiedTime⟩) ∧
        FS.get (download_file env file_id file_name destination_path fs).fs p =
          some (.meta ⟨file_id, sizeOrZero m.size, m.modifiedTime⟩)) ∧
    ((download_file env file_id file_name destination_path fs).sidecar ≠ none →
      (download_file env file_id file_name destination_path fs).ret.2.1 = true) := by
  have hf := download_file_fields env file_id file_name destination_path fs
  rcases download_file_body_cases env file_id file_name destination_path fs _ rfl with
    ⟨hs, hok⟩ | ⟨m, p, hgm, hout, hs, hget⟩
  · have hsid : (download_file env file_id file_name destination_path fs).sidecar = none :=
      hf.2.1.trans hs
    have hfail : (download_file env file_id file_name destination_path fs).ret.2.1 = false := by
      cases hb : (download_file_body env file_id file_name destination_path fs).out with
      | ok t =>
        rw [download_file_ok_ret env file_id file_name destination_path fs t hb]
        exact hok t hb
      | error e =>
        exact download_file_error_fail env file_id file_name destination_path fs e hb
    refine ⟨fun _ => hsid, ?_, fun hne => absurd hsid hne⟩
    intro m' _ hsucc
    rw [hfail] at hsucc
    cases hsucc
  · have hret := download_file_ok_ret env file_id file_name destination_path fs _ hout
    have hsucc : (download_file env file_id file_name destination_path fs).ret.2.1 = true := by
      rw [hret]
    refine ⟨?_, ?_, fun _ => hsucc⟩
    · intro hfail
      rw [hsucc] at hfail
      cases hfail
    · intro m' hm' _
      have hmm : m' = m := by
        rw [hgm] at hm'
        cases hm'
        rfl
      subst hmm
      exact ⟨p, hf.2.1.trans hs, hf.1 ▸ hget⟩

/-- C8 witness: the quota-skip path writes no sidecar, while a happy direct
download writes the sidecar with the fingerprint read at the start. -/
theorem sidecar_only_on_success_witness :
    (download_file quotaEnv "f8" "a.txt" "base/a.txt" []).sidecar = none ∧
    (∃ p, (download_file (mkHappyEnv (.ok plainMeta)) "f8" "a.txt" "base/a.txt" []).sidecar =
        some (p, ⟨"f8", sizeOrZero plainMeta.size, plainMeta.modifiedTime⟩) ∧
      FS.get (download_file (mkHappyEnv (.ok plainMeta)) "f8" "a.txt" "base/a.txt" []).fs p =
        some (.meta ⟨"f8", sizeOrZero plainMeta.size, plainMeta.modifiedTime⟩)) :=
  ⟨(sidecar_only_on_success quotaEnv "f8" "a.txt" "base/a.txt" []).1 rfl,
   (sidecar_only_on_success (mkHappyEnv (.ok plainMeta)) "f8" "a.txt" "base/a.txt" []).2.1
     plainMeta rfl rfl⟩

/-- C3 (code bug): a successful export fetch of a Google-native entry and the
next run's freshness check use different destination paths.  `download_file`
on the Doc named `Doc` succeeds and writes `base/Doc.pdf` plus
`base/Doc.pdf.meta`, but `file_already_exists` inspects `base/Doc`, finds no
artifact, and reports not-current, so the entry is re-fetched on every run. -/
theorem export_path_mismatch_bug :
    (download_file (mkHappyEnv (.ok gdocMeta)) "f1" "Doc" "base/Doc" []).ret =
      ("Doc.pdf", true, "") ∧
    FS.get (download_file (mkHappyEnv (.ok gdocMeta)) "f1" "Doc" "base/Doc" []).fs
      "base/Doc.pdf" = some .raw ∧
    FS.get (download_file (mkHappyEnv (.ok gdocMeta)) "f1" "Doc" "base/Doc" []).fs
      "base/Doc.pdf.meta" = some (.meta ⟨"f1", 0, "2024-01-01T00:00:00Z"⟩) ∧
    FS.get (download_file (mkHappyEnv (.ok gdocMeta)) "f1" "Doc" "base/Doc" []).fs
      "base/Doc" = none ∧
    file_already_exists
      (download_file (mkHappyEnv (.ok gdocMeta)) "f1" "Doc" "base/Doc" []).fs
      "base/Doc" "f1" (.ok gdocMeta) =
      .ok (false, (download_file (mkHappyEnv (.ok gdocMeta)) "f1" "Doc" "base/Doc" []).fs) :=
  ⟨rfl, rfl, rfl, rfl, rfl⟩

/-- C4 (code bug): the unsupported-kind and mid-stream quota (HTTP 403)
outcomes are tagged results that `process_subdirectory` counts in `failed`,
not in `skipped`, even though neither is retried within the call.  A
one-file run over a Google Form yields `failed = 1, skipped = 0`, and the
same holds for a quota-interrupted transfer. -/
theorem skippable_counted_as_failed_bug :
    (download_file (mkHappyEnv (.ok formMeta)) "f9" "Form" "base/dest/Form" []).ret =
      ("Form", false, "Unsupported MIME type") ∧
    process_subdirectory (happyService formTree) formTree "base" "dest" [] countersZero =
      .ok ([], ⟨0, 1, 0, 1⟩) ∧
    (download_file quotaEnv "f8" "a.txt" "base/dest/a.txt" []).ret =
      ("a.txt", false, "Quota or rate limit exceeded") ∧
    (download_file_retried quotaEnv "f8" "a.txt" "base/dest/a.txt" []).attemptsMade = 1 ∧
    process_subdirectory quotaSvc quotaTree "base" "dest" [] countersZero =
      .ok ([("base/dest/a.txt", .raw)], ⟨0, 1, 0, 1⟩) :=
  ⟨rfl, rfl, rfl, rfl, rfl⟩

theorem gatherItems_append (a b : List RTree) (p : String) :
    gatherItems (a ++ b) p = gatherItems a p ++ gatherItems b p := by
  induction a with
  | nil => simp [gatherItems]
  | cons t ts ih => simp [gatherItems, ih]

/-- C9: a folder whose listing fails contributes nothing, and only nothing,
to the enumeration: the parent's result is exactly the concatenation of the
sibling subtrees' results, and enumeration never raises (it is a total
function into a list). -/
theorem failed_subtree_isolated (fid fname parent_path cid cname : String)
    (a b : List RTree) (ccs : List RTree) :
    get_all_files (.folder fid fname true (a ++ .folder cid cname false ccs :: b))
        parent_path =
      gatherItems a parent_path ++ gatherItems b parent_path ∧
    get_all_files (.folder cid cname false ccs) parent_path = [] := by
  constructor
  · show gatherItems (a ++ .folder cid cname false ccs :: b) parent_path = _
    rw [gatherItems_append]
    simp [gatherItems, get_all_files]
  · rfl

theorem retryGo_const_error {α : Type} (cfg : RetryCfg) (retryOn : PyExc → Bool)
    (e : PyExc) (he : retryOn e = true) :
    ∀ fuel attempt, retryGo (α := α) cfg retryOn (fun _ => .error e) (fuel + 1) attempt =
      ⟨.error (.retryError e), attempt + fuel,
        (List.range fuel).map (fun i => waitDelay cfg (attempt + i))⟩ := by
  intro fuel
  induction fuel with
  | zero => intro attempt; simp [retryGo, he]
  | succ k ih =>
    intro attempt
    unfold retryGo
    dsimp only
    rw [if_pos he, if_pos (Nat.succ_ne_zero k), ih (attempt + 1)]
    dsimp only
    congr 1
    · omega
    · rw [List.range_succ_eq_map, List.map_cons, List.map_map]
      refine congrArg₂ List.cons rfl ?_
      apply List.map_congr_left
      intro i _
      dsimp only [Function.comp]
      congr 1
      omega

/-- The remote-read `try` in `file_already_exists` catches only `HttpError`
(converted to `False`) and `ssl.SSLError` (re-raised); every other exception
class — in particular `ConnectionResetError` and `OSError` — escapes to the
decorator untouched. -/
theorem fae_nonhttp_raises (fs : FS) (dest fid : String) (e : PyExc) (c : Content)
    (mm : SidecarMeta) (h1 : FS.get fs dest = some c)
    (h2 : FS.get fs (dest ++ ".meta") = some (.meta mm))
    (hne : ∀ s m, e ≠ .httpError s m) :
    file_already_exists fs dest fid (.error e) = .error e := by
  unfold file_already_exists
  cases e with
  | httpError s m => exact absurd rfl (hne s m)
  | connectionReset m => simp [h1, h2]
  | osError m => simp [h1, h2]
  | sslError m => simp [h1, h2]
  | otherExc m => simp [h1, h2]
  | retryError e' => simp [h1, h2]

theorem fae_http_false (fs : FS) (dest fid : String) (s : Nat) (msg : String)
    (c : Content) (mm : SidecarMeta) (h1 : FS.get fs dest = some c)
    (h2 : FS.get fs (dest ++ ".meta") = some (.meta mm)) :
    file_already_exists fs dest fid (.error (.httpError s msg)) = .ok (false, fs) := by
  unfold file_already_exists
  simp [h1, h2]

/-- C5 counterexample: two operation classes named by the claim are not
attempted 5 times on a persistent transient error.  A content transfer whose
every chunk raises a transient SSL error is attempted exactly once —
`download_file` converts the error into a `(name, False, message)` return
value, so its decorator never sees an exception — and a freshness-check
metadata read whose every attempt raises an `HttpError` is also attempted
exactly once, converted to not-current by the `except HttpError` clause. -/
theorem transfer_retry_counterexample :
    (download_file_retried sslStreamEnv "f" "a.txt" "d/a.txt" []).attemptsMade = 1 ∧
    ¬ (download_file_retried sslStreamEnv "f" "a.txt" "d/a.txt" []).attemptsMade = 5 ∧
    (download_file sslStreamEnv "f" "a.txt" "d/a.txt" []).ret =
      ("a.txt", false, "SSL error: handshake failure") ∧
    (file_already_exists_retried fsFresh "base/a.txt" "id1"
      (.error (.httpError 500 "Internal Error"))).attemptsMade = 1 ∧
    (file_already_exists_retried fsFresh "base/a.txt" "id1"
      (.error (.httpError 500 "Internal Error"))).result = .ok (false, fsFresh) :=
  ⟨rfl, by decide, rfl, rfl, rfl⟩

/-- C5 amended: the remote listing call, for every transient error class, and
the freshness check's metadata read, for the transient classes that function
re-raises (connection reset, OS-level socket error, SSL error), are attempted
exactly 5 times on a persistent transient error, with per-attempt backoff
delays `[4, 4, 4, 8]` — non-decreasing and bounded within [4, 10] — after
which a `RetryError` wrapping the last error is surfaced as a fatal outcome
for that single operation.  An `HttpError` from the metadata read is instead
converted to not-current after exactly one attempt, and the content transfer
inside `download_file` is attempted exactly once: every transfer error
becomes a returned `(name, False, message)` tuple that the decorator does
not retry. -/
theorem retry_policy_amended :
    (∀ e : PyExc, isTransientExc e = true →
      (list_files_in_folder (fun _ => .error e)).attemptsMade = 5 ∧
      (list_files_in_folder (fun _ => .error e)).result = .error (.retryError e) ∧
      (list_files_in_folder (fun _ => .error e)).delays = [4, 4, 4, 8] ∧
      (list_files_in_folder (fun _ => .error e)).delays.Chain' (· ≤ ·) ∧
      (∀ d ∈ (list_files_in_folder (fun _ => .error e)).delays, 4 ≤ d ∧ d ≤ 10)) ∧
    (∀ (fs : FS) (dest fid : String) (e : PyExc) (c : Content) (mm : SidecarMeta),
      FS.get fs dest = some c → FS.get fs (dest ++ ".meta") = some (.meta mm) →
      isTransientExc e = true → (∀ s m, e ≠ .httpError s m) →
      (file_already_exists_retried fs dest fid (.error e)).attemptsMade = 5 ∧
      (file_already_exists_retried fs dest fid (.error e)).result =
        .error (.retryError e) ∧
      (file_already_exists_retried fs dest fid (.error e)).delays = [4, 4, 4, 8]) ∧
    (∀ (fs : FS) (dest fid : String) (s : Nat) (msg : String) (c : Content)
      (mm : SidecarMeta),
      FS.get fs dest = some c → FS.get fs (dest ++ ".meta") = some (.meta mm) →
      (file_already_exists_retried fs dest fid (.error (.httpError s msg))).attemptsMade = 1 ∧
      (file_already_exists_retried fs dest fid (.error (.httpError s msg))).result =
        .ok (false, fs)) ∧
    (∀ (env : DlEnv) (file_id file_name destination_path : String) (fs : FS),
      (download_file_retried env file_id file_name destination_path fs).attemptsMade = 1) := by
  refine ⟨?_, ?_, ?_, ?_⟩
  · intro e he
    have h := retryGo_const_error (α := List RawItem) retryConfig isTransientExc e he 4 1
    have heq : list_files_in_folder (fun _ => .error e) =
        ⟨.error (.retryError e), 1 + 4,
          (List.range 4).map (fun i => waitDelay retryConfig (1 + i))⟩ := by
      unfold list_files_in_folder retryRun
      exact h
    rw [heq]
    have hd : (List.range 4).map (fun i => waitDelay retryConfig (1 + i)) = [4, 4, 4, 8] := by
      decide
    refine ⟨rfl, rfl, hd, ?_, ?_⟩
    · show ((List.range 4).map (fun i => waitDelay retryConfig (1 + i))).Chain' (· ≤ ·)
      rw [hd]
      simp [List.chain'_cons]
    · show ∀ d ∈ (List.range 4).map (fun i => waitDelay retryConfig (1 + i)), 4 ≤ d ∧ d ≤ 10
      rw [hd]
      decide
  · intro fs dest fid e c mm h1 h2 he hne
    have hf := fae_nonhttp_raises fs dest fid e c mm h1 h2 hne
    have h := retryGo_const_error (α := Bool × FS) retryConfig isTransientExc e he 4 1
    have heq : file_already_exists_retried fs dest fid (.error e) =
        ⟨.error (.retryError e), 1 + 4,
          (List.range 4).map (fun i => waitDelay retryConfig (1 + i))⟩ := by
      unfold file_already_exists_retried retryRun
      rw [show (fun _ : Nat => file_already_exists fs dest fid (.error e)) =
        (fun _ : Nat => (.error e : Except PyExc (Bool × FS))) from funext (fun _ => hf)]
      exact h
    rw [heq]
    have hd : (List.range 4).map (fun i => waitDelay retryConfig (1 + i)) = [4, 4, 4, 8] := by
      decide
    exact ⟨rfl, rfl, hd⟩
  · intro fs dest fid s msg c mm h1 h2
    have hf := fae_http_false fs dest fid s msg c mm h1 h2
    unfold file_already_exists_retried
    rw [retryRun_first_ok retryConfig isTransientExc _ (false, fs) hf (by decide)]
    exact ⟨rfl, rfl⟩
  · intro env file_id file_name destination_path fs
    have hr := download_file_raised_none env file_id file_name destination_path fs
    unfold download_file_retried
    rw [retryRun_first_ok retryConfig isTransientExc _
      (download_file env file_id file_name destination_path fs) (by simp only [hr]) (by decide)]

/-- C5 witness: a permanently resetting listing is attempted 5 times; an
OSError-raising freshness check is attempted 5 times; an HttpError-raising
freshness check is attempted once; a happy decorated `download_file` runs
once. -/
theorem retry_policy_amended_witness :
    (list_files_in_folder (fun _ => .error (.connectionReset "reset"))).attemptsMade = 5 ∧
    (file_already_exists_retried fsFresh "base/a.txt" "id1"
      (.error (.osError "reset by peer"))).attemptsMade = 5 ∧
    (file_already_exists_retried fsFresh "base/a.txt" "id1"
      (.error (.httpError 500 "Internal Error"))).attemptsMade = 1 ∧
    (download_file_retried (mkHappyEnv (.ok plainMeta)) "f" "n" "d/n" []).attemptsMade = 1 :=
  ⟨(retry_policy_amended.1 (.connectionReset "reset") rfl).1,
   (retry_policy_amended.2.1 fsFresh "base/a.txt" "id1" (.osError "reset by peer") .raw
      ⟨"id1", 7, "T1"⟩ rfl rfl rfl (fun _ _ h => PyExc.noConfusion h)).1,
   (retry_policy_amended.2.2.1 fsFresh "base/a.txt" "id1" 500 "Internal Error" .raw
      ⟨"id1", 7, "T1"⟩ rfl rfl).1,
   retry_policy_amended.2.2.2 (mkHappyEnv (.ok plainMeta)) "f" "n" "d/n" []⟩

/-- C2 counterexample: for a one-plain-file tree, unchanged remote, fully
successful first run, the second run indeed downloads nothing — but its
counters read `skipped = 1, total_files = 0`, so `skipped == total` fails
(`total_files` only counts files put into the fetch set).  And for a
one-Google-Doc tree the second run is not fetch-free at all: it re-downloads
the document (`downloaded = 1`), because the export path differs from the
checked path. -/
theorem second_run_counters_counterexample :
    process_subdirectory (happyService plainTree) plainTree "base" "dest" [] countersZero =
      .ok (plainFs1, ⟨0, 0, 1, 1⟩) ∧
    process_subdirectory (happyService plainTree) plainTree "base" "dest" plainFs1 countersZero =
      .ok (plainFs1, ⟨1, 0, 0, 0⟩) ∧
    ¬ ((⟨1, 0, 0, 0⟩ : Counters).skipped = (⟨1, 0, 0, 0⟩ : Counters).total_files) ∧
    process_subdirectory (happyService gTree) gTree "base" "dest" [] countersZero =
      .ok (gFs1, ⟨0, 0, 1, 1⟩) ∧
    process_subdirectory (happyService gTree) gTree "base" "dest" gFs1 countersZero =
      .ok (gFs1, ⟨0, 0, 1, 1⟩) ∧
    ¬ ((⟨0, 0, 1, 1⟩ : Counters).downloaded = 0) :=
  ⟨rfl, rfl, by decide, rfl, rfl, by decide⟩

theorem downloadAll_happy (svc : Service) (getm : String → DriveFileMeta) :
    ∀ (l : List (String × String × String)) (fs : FS) (c : Counters),
    (∀ t ∈ l, svc.dlEnv t.1 = mkHappyEnv (.ok (getm t.1)) ∧
      strStartsWith (getm t.1).mimeType "application/vnd.google-apps" = false) →
    PathsSeparated (l.map (fun t => t.2.2)) →
    (downloadAll svc l fs c).2 = { c with downloaded := c.downloaded + l.length } ∧
    (∀ t ∈ l, FS.get (downloadAll svc l fs c).1 t.2.2 = some .raw ∧
      FS.get (downloadAll svc l fs c).1 (t.2.2 ++ ".meta") =
        some (.meta ⟨t.1, sizeOrZero (getm t.1).size, (getm t.1).modifiedTime⟩)) ∧
    (∀ p, (∀ t ∈ l, p ≠ t.2.2 ∧ p ≠ t.2.2 ++ ".meta") →
      FS.get (downloadAll svc l fs c).1 p = FS.get fs p) := by
  intro l
  induction l with
  | nil =>
    intro fs c _ _
    exact ⟨rfl, by simp, fun p _ => rfl⟩
  | cons hd tl ih =>
    intro fs c hm hsep
    obtain ⟨fid, fname, dest⟩ := hd
    have hhd := hm _ (List.mem_cons_self _ _)
    have hdl := download_file_happy (getm fid) hhd.2 fid fname dest fs
    have hsep0 := List.pairwise_cons.mp hsep
    have hm' : ∀ t ∈ tl, svc.dlEnv t.1 = mkHappyEnv (.ok (getm t.1)) ∧
        strStartsWith (getm t.1).mimeType "application/vnd.google-apps" = false :=
      fun t ht => hm t (List.mem_cons_of_mem _ ht)
    have hstep : downloadAll svc ((fid, fname, dest) :: tl) fs c =
        downloadAll svc tl
          ((fs.set dest .raw).set (dest ++ ".meta")
            (.meta ⟨fid, sizeOrZero (getm fid).size, (getm fid).modifiedTime⟩))
          { c with downloaded := c.downloaded + 1 } := by
      simp only [downloadAll, hhd.1, hdl, if_true]
    obtain ⟨ihc, ihmem, ihpres⟩ := ih
      ((fs.set dest .raw).set (dest ++ ".meta")
        (.meta ⟨fid, sizeOrZero (getm fid).size, (getm fid).modifiedTime⟩))
      { c with downloaded := c.downloaded + 1 } hm' hsep0.2
    refine ⟨?_, ?_, ?_⟩
    · rw [hstep, ihc, List.length_cons,
        show c.downloaded + 1 + tl.length = c.downloaded + (tl.length + 1) from by omega]
    · intro t ht
      rcases List.mem_cons.mp ht with rfl | htl
      · have hnot : ∀ t' ∈ tl, dest ≠ t'.2.2 ∧ dest ≠ t'.2.2 ++ ".meta" := by
          intro t' ht'
          have hs := hsep0.1 t'.2.2 (List.mem_map_of_mem _ ht')
          exact ⟨hs.1, hs.2.1⟩
        have hnotm : ∀ t' ∈ tl, dest ++ ".meta" ≠ t'.2.2 ∧
            dest ++ ".meta" ≠ t'.2.2 ++ ".meta" := by
          intro t' ht'
          have hs := hsep0.1 t'.2.2 (List.mem_map_of_mem _ ht')
          exact ⟨hs.2.2.1, hs.2.2.2⟩
        constructor
        · rw [hstep, ihpres _ hnot, FS.get_set_ne _ _ _ _ (ne_append_meta _),
            FS.get_set_self]
        · rw [hstep, ihpres _ hnotm, FS.get_set_self]
      · exact hstep ▸ ihmem t htl
    · intro p hp
      have hp1 := hp _ (List.mem_cons_self _ _)
      rw [hstep, ihpres p (fun t ht => hp t (List.mem_cons_of_mem _ ht)),
        FS.get_set_ne _ _ _ _ hp1.2, FS.get_set_ne _ _ _ _ hp1.1]

theorem assessFiles_from_empty (svc : Service) (base : String) :
    ∀ (l : List DriveItem) (c : Counters),
    assessFiles svc base l [] c =
      .ok ([], c, l.map (fun item => (item.id, item.name, pathJoin base item.path))) := by
  intro l
  induction l with
  | nil => intro c; rfl
  | cons item rest ih =>
    intro c
    have h1 : file_already_exists [] (pathJoin base item.path) item.id
        (svc.freshMeta item.id) = .ok (false, []) := by
      unfold file_already_exists
      simp [FS.get]
    have h2 : (file_already_exists_retried [] (pathJoin base item.path) item.id
        (svc.freshMeta item.id)).result = .ok (false, []) := by
      unfold file_already_exists_retried
      rw [retryRun_first_ok _ _ _ _ h1 (by decide)]
    simp only [assessFiles, h2, ih c, List.map_cons]

theorem assessFiles_all_fresh (svc : Service) (base : String) :
    ∀ (l : List DriveItem) (fs : FS) (c : Counters),
    (∀ item ∈ l, file_already_exists fs (pathJoin base item.path) item.id
      (svc.freshMeta item.id) = .ok (true, fs)) →
    assessFiles svc base l fs c =
      .ok (fs, { c with skipped := c.skipped + l.length }, []) := by
  intro l
  induction l with
  | nil => intro fs c _; rfl
  | cons item rest ih =>
    intro fs c hall
    have h1 := hall item (List.mem_cons_self _ _)
    have h2 : (file_already_exists_retried fs (pathJoin base item.path) item.id
        (svc.freshMeta item.id)).result = .ok (true, fs) := by
      unfold file_already_exists_retried
      rw [retryRun_first_ok _ _ _ _ h1 (by decide)]
    have ih' := ih fs { c with skipped := c.skipped + 1 }
      (fun it h => hall it (List.mem_cons_of_mem _ h))
    simp only [assessFiles, h2, ih', List.length_cons]
    have harith : c.skipped + 1 + rest.length = c.skipped + (rest.length + 1) := by omega
    rw [harith]

/-- C2 amended: for a remote tree of plain (non-Google-native) files whose
destination paths (and sidecar paths) do not collide, syncing twice from an
empty local tree with an unchanged, error-free remote gives a fully
successful first run (`failed = 0`, everything downloaded) and a second run
that fetches nothing: `downloaded = 0`, `failed = 0`, `total_files = 0` (the
counter only counts files put into the fetch set) and `skipped` equal to the
number of enumerated files. -/
theorem second_run_idempotent_amended (root : RTree) (base_directory dest_dir : String)
    (hmeta : ∀ item ∈ get_all_files root "",
      findMeta root item.id = some (metaOf root item.id) ∧
      strStartsWith (metaOf root item.id).mimeType "application/vnd.google-apps" = false)
    (hsep : PathsSeparated ((get_all_files root "").map (fun item =>
      pathJoin (pathJoin base_directory (sanitize_filename (some dest_dir))) item.path))) :
    ∃ fs1 : FS,
      process_subdirectory (happyService root) root base_directory dest_dir [] countersZero =
        .ok (fs1, ⟨0, 0, (get_all_files root "").length, (get_all_files root "").length⟩) ∧
      process_subdirectory (happyService root) root base_directory dest_dir fs1 countersZero =
        .ok (fs1, ⟨(get_all_files root "").length, 0, 0, 0⟩) := by
  by_cases hnil : get_all_files root "" = []
  · refine ⟨[], ?_, ?_⟩ <;>
      · unfold process_subdirectory
        rw [if_pos hnil, hnil]
        rfl
  · have hbase :
        pathJoin base_directory (sanitize_filename (some dest_dir)) =
          pathJoin base_directory (sanitize_filename (some dest_dir)) := rfl
    set base := pathJoin base_directory (sanitize_filename (some dest_dir))
    set items := get_all_files root "" with hitems
    set toDl := items.map (fun item => (item.id, item.name, pathJoin base item.path))
      with htoDl
    have hm' : ∀ t ∈ toDl,
        (happyService root).dlEnv t.1 = mkHappyEnv (.ok (metaOf root t.1)) ∧
        strStartsWith (metaOf root t.1).mimeType "application/vnd.google-apps" = false := by
      intro t ht
      obtain ⟨item, hitem, rfl⟩ := List.mem_map.mp ht
      have h := hmeta item hitem
      refine ⟨?_, h.2⟩
      show mkHappyEnv (driveMetaOf root item.id) = _
      unfold driveMetaOf
      rw [h.1]
    have hsep' : PathsSeparated (toDl.map (fun t => t.2.2)) := by
      rw [htoDl, List.map_map]
      exact hsep
    obtain ⟨hc1, hmem1, _⟩ := downloadAll_happy (happyService root) (metaOf root)
      toDl [] ⟨0, 0, 0, items.length⟩ hm' hsep'
    have hlen : toDl.length = items.length := List.length_map _ _
    have hrun1 : process_subdirectory (happyService root) root base_directory dest_dir
        [] countersZero =
        .ok ((downloadAll (happyService root) toDl [] ⟨0, 0, 0, items.length⟩).1,
          ⟨0, 0, items.length, items.length⟩) := by
      unfold process_subdirectory
      rw [if_neg hnil]
      rw [assessFiles_from_empty (happyService root) base items countersZero]
      simp only [countersZero]
      rw [← htoDl]
      have hne : ¬ toDl.length = 0 := by
        rw [hlen]
        simpa [List.length_eq_zero] using hnil
      rw [if_neg hne]
      rw [show (⟨0, 0, 0, 0 + toDl.length⟩ : Counters) = ⟨0, 0, 0, items.length⟩ by
        rw [Nat.zero_add, hlen]]
      have h2 : (downloadAll (happyService root) toDl [] ⟨0, 0, 0, items.length⟩).2 =
          ⟨0, 0, items.length, items.length⟩ := by
        rw [hc1]
        show (⟨0, 0, 0 + toDl.length, items.length⟩ : Counters) = _
        rw [Nat.zero_add, hlen]
      rw [← h2]
    set fs1 := (downloadAll (happyService root) toDl [] ⟨0, 0, 0, items.length⟩).1 with hfs1
    have hfresh : ∀ item ∈ items, file_already_exists fs1 (pathJoin base item.path) item.id
        ((happyService root).freshMeta item.id) = .ok (true, fs1) := by
      intro item hitem
      have ht : (item.id, item.name, pathJoin base item.path) ∈ toDl :=
        List.mem_map_of_mem _ hitem
      have hmm := hmem1 _ ht
      have hfm : (happyService root).freshMeta item.id = .ok (metaOf root item.id) := by
        show driveMetaOf root item.id = _
        unfold driveMetaOf
        rw [(hmeta item hitem).1]
      rw [hfm]
      exact fae_fresh fs1 (pathJoin base item.path) item.id (metaOf root item.id)
        .raw hmm.1 hmm.2
    have hrun2 : process_subdirectory (happyService root) root base_directory dest_dir
        fs1 countersZero = .ok (fs1, ⟨items.length, 0, 0, 0⟩) := by
      unfold process_subdirectory
      rw [if_neg hnil]
      rw [assessFiles_all_fresh (happyService root) base items fs1 countersZero hfresh]
      show Except.ok (fs1, (⟨0 + items.length, 0, 0, 0⟩ : Counters)) =
        Except.ok (fs1, (⟨items.length, 0, 0, 0⟩ : Counters))
      rw [Nat.zero_add]
    exact ⟨fs1, hrun1, hrun2⟩

/-- C2 witness: a two-file tree (one file at the root, one in a subfolder)
downloaded twice from an empty destination. -/
theorem second_run_idempotent_amended_witness :
    ∃ fs1 : FS,
      process_subdirectory (happyService twoTree) twoTree "base" "dest" [] countersZero =
        .ok (fs1, ⟨0, 0, (get_all_files twoTree "").length, (get_all_files twoTree "").length⟩) ∧
      process_subdirectory (happyService twoTree) twoTree "base" "dest" fs1 countersZero =
        .ok (fs1, ⟨(get_all_files twoTree "").length, 0, 0, 0⟩) :=
  second_run_idempotent_amended twoTree "base" "dest" (by decide) (by decide)

end FileAgent
